import Mathlib

/-!
Shallow embedding of the live detection stream aggregator
(`DetectionViewer` in `src/iot/src/components/AlertsPanel.tsx`).

JavaScript `Map` objects (`pendingDetectionsRef`, `pendingFramesRef`,
`detections`) are modelled as insertion-ordered association lists over
`String` keys.  JavaScript numbers that may be `NaN` (the result of
`new Date(ts).getTime()` on an unparseable timestamp) are modelled as
`Option Rat`, with `none` standing for `NaN`; the comparison
`a <= b` on such values (false whenever either side is `NaN`) is `jsLe`.
The two external effects of `handleFrameEvent` — timestamp parsing via the
`Date` built-in and the image fetch — are passed in as function parameters
`parse : String → Option Rat` and `fetch : String → Option String`
(`none` = fetch failed / returned null).  Events are processed one at a
time to completion, matching the sequential browser event-loop schedule in
which each image fetch resolves before the next stream message is handled.
-/

namespace DetectionViewer

/-- Insertion-ordered association list keyed by strings: the model of a
JavaScript `Map<string, β>`. -/
abbrev AList (β : Type) : Type := List (String × β)

/-- `Map.get`: first value stored at the key, if any. -/
def alGet {β : Type} : AList β → String → Option β
  | [], _ => none
  | (k', v) :: t, k => if k' = k then some v else alGet t k

/-- `Map.set`: update the value in place at an existing key, otherwise
append a new entry at the end (JS `Map` preserves insertion order). -/
def alSet {β : Type} : AList β → String → β → AList β
  | [], k, v => [(k, v)]
  | (k', v') :: t, k, v => if k' = k then (k, v) :: t else (k', v') :: alSet t k v

/-- `Map.delete`: remove the entries stored at the key. -/
def alDel {β : Type} (m : AList β) (k : String) : AList β :=
  m.filter (fun p => !(p.1 = k : Bool))

/-- JavaScript `<=` on numbers that may be `NaN` (`none`): any comparison
involving `NaN` is false. -/
def jsLe (a b : Option Rat) : Bool :=
  match a, b with
  | some x, some y => decide (x ≤ y)
  | _, _ => false

/-- Detection payload of a `{type:"detection"}` SSE message
(`DetectionEvent.data` in the source). -/
structure DetData where
  id : Int
  frame_id : String
  timestamp : String
  label : String
  class_id : Int
  confidence : Rat
  bbox : Rat × Rat × Rat × Rat
deriving DecidableEq, Repr

/-- Frame payload of a `{type:"frame"}` SSE message
(`FrameEvent.data` in the source). -/
structure FrameData where
  id : String
  timestamp : String
  ingest_timestamp : String
  update_timestamp : String
  stream_id : String
  fps : Rat
  scale : Rat
deriving DecidableEq, Repr

/-- One stored detection inside a `FrameDetections` aggregate (the record
pushed by `handleDetectionEvent`; it drops the `frame_id` field). -/
structure StoredDet where
  id : Int
  label : String
  class_id : Int
  confidence : Rat
  bbox : Rat × Rat × Rat × Rat
  timestamp : String
deriving DecidableEq, Repr

/-- Aggregated detection data for one frame (`FrameDetections`). -/
structure FrameDetections where
  frameId : String
  detections : List StoredDet
  labels : AList Rat
  detectionCount : Nat
deriving DecidableEq, Repr

/-- Frame metadata together with its image and detections (`FrameData`
with the extra `imageUrl` and `detections` fields). -/
structure FrameDataFull where
  base : FrameData
  imageUrl : Option String
  detections : FrameDetections
deriving DecidableEq, Repr

/-- Per-stream rendering slot (`DetectionCard`): the latest completed
frame plus its parsed comparison timestamp (`none` models `NaN`). -/
structure DetectionCard where
  frameData : FrameDataFull
  messageTimestamp : Option Rat
deriving DecidableEq, Repr

/-- The component's correlation state: the slot map (`detections`), the
two pending buffers, and an append-only log recording every slot install
(stream id, frame id) — the observable "frame completed" occurrences. -/
structure ViewerState where
  detections : AList DetectionCard
  pendingDetections : AList FrameDetections
  pendingFrames : AList FrameData
  completedLog : List (String × String)
deriving DecidableEq, Repr

/-- The state at component mount: every map empty. -/
def initState : ViewerState := ⟨[], [], [], []⟩

/-- `normalizeScore`: confidences above 1 are percent-scale and are
divided by 100; fraction-scale confidences pass through unchanged. -/
def normalizeScore (confidence : Rat) : Rat :=
  if 1 < confidence then confidence / 100 else confidence

/-- The empty aggregate created on first contact with a frame id. -/
def emptyFD (f : String) : FrameDetections :=
  ⟨f, [], [], 0⟩

/-- The record `handleDetectionEvent` pushes into the aggregate. -/
def storedDetOf (d : DetData) : StoredDet :=
  ⟨d.id, d.label, d.class_id, d.confidence, d.bbox, d.timestamp⟩

/-- Label-map update of `handleDetectionEvent`: store the normalized
score when the label is absent, currently falsy (0), or beaten. -/
def updLabels (labels : AList Rat) (label : String) (ns : Rat) : AList Rat :=
  match alGet labels label with
  | none => alSet labels label ns
  | some cur => if cur = 0 ∨ cur < ns then alSet labels label ns else labels

/-- Adding one detection to an aggregate: append to the ordered list,
update the label map, refresh the count. -/
def addDet (fd : FrameDetections) (d : DetData) : FrameDetections :=
  let dets := fd.detections ++ [storedDetOf d]
  { fd with
    detections := dets
    labels := updLabels fd.labels d.label (normalizeScore d.confidence)
    detectionCount := dets.length }

/-- The `imageUrl || undefined` coercion: `null` and the empty string
both become `undefined` (`none`). -/
def imgOpt (r : Option String) : Option String :=
  match r with
  | none => none
  | some s => if s = "" then none else some s

/-- `handleFrameEvent`: complete the frame when at least one detection is
buffered and the slot's staleness check passes; otherwise either park the
frame in `pendingFrames` (zero detections) or drop the update (stale). -/
def handleFrameEvent (parse : String → Option Rat) (fetch : String → Option String)
    (σ : ViewerState) (fe : FrameData) : ViewerState :=
  if fe.stream_id = "" ∨ fe.id = "" then σ
  else
    let fd := (alGet σ.pendingDetections fe.id).getD (emptyFD fe.id)
    if fd.detectionCount = 0 then
      { σ with pendingFrames := alSet σ.pendingFrames fe.id fe }
    else
      let ts := parse fe.timestamp
      let stale :=
        match alGet σ.detections fe.stream_id with
        | some ex => jsLe ts ex.messageTimestamp
        | none => false
      if stale then σ
      else
        { σ with
          detections :=
            alSet σ.detections fe.stream_id ⟨⟨fe, imgOpt (fetch fe.id), fd⟩, ts⟩
          pendingDetections := alDel σ.pendingDetections fe.id
          completedLog := σ.completedLog ++ [(fe.stream_id, fe.id)] }

/-- `handleDetectionEvent`: buffer the detection under its frame id; if a
frame was already waiting for that id, immediately attempt completion and
drop the parked frame. -/
def handleDetectionEvent (parse : String → Option Rat) (fetch : String → Option String)
    (σ : ViewerState) (d : DetData) : ViewerState :=
  if d.frame_id = "" then σ
  else
    let fd0 := (alGet σ.pendingDetections d.frame_id).getD (emptyFD d.frame_id)
    let σ1 := { σ with pendingDetections := alSet σ.pendingDetections d.frame_id (addDet fd0 d) }
    match alGet σ1.pendingFrames d.frame_id with
    | some fe =>
      let σ2 := handleFrameEvent parse fetch σ1 fe
      { σ2 with pendingFrames := alDel σ2.pendingFrames d.frame_id }
    | none => σ1

/-- One SSE payload already routed by type. -/
inductive SSEEvent : Type
  | det (d : DetData)
  | frm (f : FrameData)
deriving DecidableEq, Repr

/-- Processing one routed event. -/
def step (parse : String → Option Rat) (fetch : String → Option String)
    (σ : ViewerState) : SSEEvent → ViewerState
  | .det d => handleDetectionEvent parse fetch σ d
  | .frm f => handleFrameEvent parse fetch σ f

/-- Processing a whole event sequence in arrival order. -/
def run (parse : String → Option Rat) (fetch : String → Option String)
    (σ : ViewerState) (evs : List SSEEvent) : ViewerState :=
  evs.foldl (step parse fetch) σ

/-- The slot-install branch of `handleFrameEvent` (the body of the
`setDetections` updater when the staleness check passes): store the new
card, clean up the pending detections, record the completion. -/
def installFrame (parse : String → Option Rat) (fetch : String → Option String)
    (σ : ViewerState) (fe : FrameData) (A : FrameDetections) : ViewerState :=
  { σ with
    detections :=
      alSet σ.detections fe.stream_id ⟨⟨fe, imgOpt (fetch fe.id), A⟩, parse fe.timestamp⟩
    pendingDetections := alDel σ.pendingDetections fe.id
    completedLog := σ.completedLog ++ [(fe.stream_id, fe.id)] }

/-- A parsed SSE message as seen by `eventSource.onmessage`: the optional
`type` and `error` fields plus the payload for each recognized type
(`none` models a missing or unusable `data` field, which the try/catch
turns into a dropped message). -/
structure RawMsg where
  type : Option String
  error : Option String
  det : Option DetData
  frm : Option FrameData
deriving DecidableEq, Repr

/-- JS truthiness of an optional string field: present and non-empty. -/
def strTruthy : Option String → Bool
  | none => false
  | some s => !(s = "" : Bool)

/-- Connection status together with the correlator state. -/
structure AppState where
  status : String
  viewer : ViewerState
deriving DecidableEq, Repr

/-- The `eventSource.onmessage` dispatcher: messages with a falsy `type`
are keepalives and ignored; a message with a truthy `error` field only
updates the status; otherwise the message is routed by `type` to the
detection or frame handler, and unknown types are a no-op. -/
def onMessage (parse : String → Option Rat) (fetch : String → Option String)
    (a : AppState) (m : RawMsg) : AppState :=
  if strTruthy m.type = false then a
  else if strTruthy m.error then { a with status := "Error: " ++ m.error.getD "" }
  else if m.type = some "detection" then
    match m.det with
    | some d => { a with viewer := handleDetectionEvent parse fetch a.viewer d }
    | none => a
  else if m.type = some "frame" then
    match m.frm with
    | some f => { a with viewer := handleFrameEvent parse fetch a.viewer f }
    | none => a
  else a

/-- The effect of one message on the correlator state alone: `onMessage`
never reads the status to decide routing, so its viewer component is this
function of the previous viewer component. -/
def routeMessage (parse : String → Option Rat) (fetch : String → Option String)
    (v : ViewerState) (m : RawMsg) : ViewerState :=
  if strTruthy m.type = false then v
  else if strTruthy m.error then v
  else if m.type = some "detection" then
    match m.det with
    | some d => handleDetectionEvent parse fetch v d
    | none => v
  else if m.type = some "frame" then
    match m.frm with
    | some f => handleFrameEvent parse fetch v f
    | none => v
  else v

/-- EventSource readyState values. -/
inductive ESReady : Type
  | connecting
  | opened
  | closed
deriving DecidableEq, Repr

/-- Stream connection manager state: the component's `isLive` and
`status` state, `eventSourceRef.current` (`none` = null) with its
readyState, any scheduled reconnect timer with its delay in ms, and a
counter of `connect()` invocations. -/
structure Mgr where
  isLive : Bool
  status : String
  es : Option ESReady
  reconnectDelay : Option Nat
  connectCalls : Nat
deriving DecidableEq, Repr

/-- `connect()`: sets "Connecting...", closes any existing connection,
then either stops with "Paused" (not live) or opens a fresh EventSource. -/
def connect (m : Mgr) : Mgr :=
  if m.isLive then
    { m with
      connectCalls := m.connectCalls + 1
      status := "Connecting..."
      es := some ESReady.connecting }
  else
    { m with
      connectCalls := m.connectCalls + 1
      status := "Paused"
      es := none }

/-- `eventSource.onerror`: the transport reports an error leaving the
EventSource in readyState `rs`; the status becomes the reconnect message
and a 1000 ms reconnect check is scheduled via `setTimeout`. -/
def onTransportError (m : Mgr) (rs : ESReady) : Mgr :=
  { m with
    status := "Connection error - reconnecting..."
    es := m.es.map (fun _ => rs)
    reconnectDelay := some 1000 }

/-- The scheduled reconnect callback firing: call `connect()` only when
`eventSourceRef.current` is still set and its readyState is CLOSED (the
`isLive` captured by the callback's closure is true, because handlers are
only ever installed by a `connect()` that ran while live). -/
def timerFire (m : Mgr) : Mgr :=
  let m0 := { m with reconnectDelay := none }
  match m.es with
  | some ESReady.closed => connect m0
  | _ => m0

/-- The `useEffect [isLive]` branch for `setLive(false)`: close the
connection, null the ref, show "Paused". -/
def setLiveFalse (m : Mgr) : Mgr :=
  { m with isLive := false, es := none, status := "Paused" }

/-- The geometry published by the zoomed image's `onLoad` handler
(`setImageScale`). -/
structure ImageScale where
  scaleX : Rat
  scaleY : Rat
  offsetX : Rat
  offsetY : Rat
  displayWidth : Rat
  displayHeight : Rat
deriving DecidableEq, Repr

/-- The `onLoad` overlay computation: a uniform scale
`min(displayWidth/naturalWidth, displayHeight/naturalHeight)`, the
rendered size `natural * scale`, and centering offsets
`(display - rendered) / 2` in each axis. -/
def computeImageScale (naturalW naturalH displayW displayH : Rat) : ImageScale :=
  let scaleX := displayW / naturalW
  let scaleY := displayH / naturalH
  let scale := min scaleX scaleY
  let renderedW := naturalW * scale
  let renderedH := naturalH * scale
  ⟨scale, scale, (displayW - renderedW) / 2, (displayH - renderedH) / 2,
   renderedW, renderedH⟩

/-- The bounding-box transform applied to each raw `[x1,y1,x2,y2]` box:
`scaled = raw * scale + offset` componentwise. -/
def scaleBBox (s : ImageScale) (b : Rat × Rat × Rat × Rat) : Rat × Rat × Rat × Rat :=
  (b.1 * s.scaleX + s.offsetX, b.2.1 * s.scaleY + s.offsetY,
   b.2.2.1 * s.scaleX + s.offsetX, b.2.2.2 * s.scaleY + s.offsetY)

/-! ### Concrete instances used by witnesses and counterexamples -/

/-- A timestamp parser for concrete runs: `tN` parses to `N`, all other
strings are unparseable (`NaN`). -/
def parseT : String → Option Rat := fun s =>
  if s = "t1" then some 1 else if s = "t2" then some 2 else
  if s = "t3" then some 3 else none

/-- A fetch oracle whose every request fails. -/
def fetch0 : String → Option String := fun _ => none

/-- A fetch oracle that always yields an image URL. -/
def fetchOk : String → Option String := fun s => some ("img-" ++ s)

def dA : DetData := ⟨1, "f1", "t1", "truck", 0, 1, (0, 0, 10, 10)⟩
def dB : DetData := ⟨2, "f1", "t1", "car", 0, 1, (0, 0, 5, 5)⟩
def feX : FrameData := ⟨"f1", "t1", "t1", "t1", "s1", 30, 1⟩

def dG1 : DetData := ⟨3, "g1", "t1", "truck", 0, 1, (0, 0, 1, 1)⟩
def dG2 : DetData := ⟨4, "g2", "t2", "cat", 0, 1, (0, 0, 1, 1)⟩
def feT1 : FrameData := ⟨"g1", "t1", "t1", "t1", "sw", 30, 1⟩
def feT2 : FrameData := ⟨"g2", "t2", "t2", "t2", "sw", 30, 1⟩

def fe9 : FrameData := ⟨"f9", "t1", "t1", "t1", "s9", 30, 1⟩

/-- The card installed by running `[.det dA, .frm feX]` from the initial
state under `parseT` and `fetchOk`. -/
def cW : DetectionCard :=
  ⟨⟨feX, some "img-f1", ⟨"f1", [storedDetOf dA], [("truck", 1)], 1⟩⟩, some 1⟩

def d087 : DetData := ⟨5, "f5", "t1", "person", 0, 87/100, (0, 0, 1, 1)⟩
def d87 : DetData := ⟨6, "f5", "t1", "person", 0, 87, (0, 0, 1, 1)⟩

/-- A frame event whose timestamp string does not parse (`NaN`). -/
def feN : FrameData := ⟨"f1", "bogus", "bogus", "bogus", "s1", 30, 1⟩

/-- A connection manager that is live and connected. -/
def mgrLive : Mgr := ⟨true, "Connected", some ESReady.opened, none, 0⟩

/-! ### Map lemmas -/

theorem alGet_set_self {β : Type} (m : AList β) (k : String) (v : β) :
    alGet (alSet m k v) k = some v := by
  induction m with
  | nil => simp [alSet, alGet]
  | cons p t ih =>
    obtain ⟨a, b⟩ := p
    by_cases h : a = k
    · subst h; simp [alSet, alGet]
    · simp [alSet, alGet, h, ih]

theorem alGet_set_ne {β : Type} (m : AList β) {k j : String} (v : β) (h : k ≠ j) :
    alGet (alSet m k v) j = alGet m j := by
  induction m with
  | nil => simp [alSet, alGet, h]
  | cons p t ih =>
    obtain ⟨a, b⟩ := p
    by_cases hak : a = k
    · subst hak; simp [alSet, alGet, h]
    · simp [alSet, alGet, hak, ih]

theorem alGet_del_self {β : Type} (m : AList β) (k : String) :
    alGet (alDel m k) k = none := by
  induction m with
  | nil => simp [alDel, alGet]
  | cons p t ih =>
    obtain ⟨a, b⟩ := p
    by_cases h : a = k
    · simpa [alDel, List.filter_cons, h] using ih
    · simpa [alDel, List.filter_cons, alGet, h] using ih

theorem alGet_del_ne {β : Type} (m : AList β) {k j : String} (h : k ≠ j) :
    alGet (alDel m k) j = alGet m j := by
  induction m with
  | nil => simp [alDel, alGet]
  | cons p t ih =>
    obtain ⟨a, b⟩ := p
    by_cases hak : a = k
    · subst hak
      have haj : ¬ a = j := fun hh => h (hh ▸ rfl)
      simpa [alDel, List.filter_cons, alGet, haj] using ih
    · by_cases haj : a = j
      · simp [alDel, List.filter_cons, alGet, hak, haj, Ne.symm h]
      · simpa [alDel, List.filter_cons, alGet, hak, haj] using ih

theorem alGet_del_none {β : Type} (m : AList β) {k j : String}
    (h : alGet m j = none) : alGet (alDel m k) j = none := by
  by_cases hkj : k = j
  · subst hkj; exact alGet_del_self m k
  · rw [alGet_del_ne m hkj]; exact h

theorem alDel_of_get_none {β : Type} (m : AList β) {k : String}
    (h : alGet m k = none) : alDel m k = m := by
  induction m with
  | nil => simp [alDel]
  | cons p t ih =>
    obtain ⟨a, b⟩ := p
    rw [alGet] at h
    by_cases hak : a = k
    · simp [hak] at h
    · simp [hak] at h
      simp [alDel, List.filter_cons, hak]
      have := ih h
      simpa [alDel] using this

theorem alSet_of_get_none {β : Type} (m : AList β) {k : String} (v : β)
    (h : alGet m k = none) : alSet m k v = m ++ [(k, v)] := by
  induction m with
  | nil => simp [alSet]
  | cons p t ih =>
    obtain ⟨a, b⟩ := p
    rw [alGet] at h
    by_cases hak : a = k
    · simp [hak] at h
    · simp [hak] at h
      simp [alSet, hak, ih h]

theorem alDel_set_of_get_none {β : Type} (m : AList β) {k : String} (v : β)
    (h : alGet m k = none) : alDel (alSet m k v) k = m := by
  rw [alSet_of_get_none m v h]
  show List.filter _ (m ++ [(k, v)]) = m
  rw [List.filter_append]
  have h2 : alDel [(k, v)] k = [] := by simp [alDel]
  calc List.filter (fun p => !(p.1 = k : Bool)) m ++
        List.filter (fun p => !(p.1 = k : Bool)) [(k, v)]
      = alDel m k ++ alDel [(k, v)] k := rfl
    _ = m ++ [] := by rw [alDel_of_get_none m h, h2]
    _ = m := by simp

/-! ### Characterizations of the two handlers -/

theorem handleFrameEvent_park (parse : String → Option Rat) (fetch : String → Option String)
    (σ : ViewerState) (fe : FrameData)
    (hs : ¬ fe.stream_id = "") (hf : ¬ fe.id = "")
    (hc : ((alGet σ.pendingDetections fe.id).getD (emptyFD fe.id)).detectionCount = 0) :
    handleFrameEvent parse fetch σ fe =
      { σ with pendingFrames := alSet σ.pendingFrames fe.id fe } := by
  simp [handleFrameEvent, hs, hf, hc]

theorem handleFrameEvent_stale (parse : String → Option Rat) (fetch : String → Option String)
    (σ : ViewerState) (fe : FrameData) (A : FrameDetections) (ex : DetectionCard)
    (hs : ¬ fe.stream_id = "") (hf : ¬ fe.id = "")
    (hA : alGet σ.pendingDetections fe.id = some A) (hc : A.detectionCount ≠ 0)
    (hex : alGet σ.detections fe.stream_id = some ex)
    (hle : jsLe (parse fe.timestamp) ex.messageTimestamp = true) :
    handleFrameEvent parse fetch σ fe = σ := by
  simp [handleFrameEvent, hs, hf, hA, hc, hex, hle]

theorem handleFrameEvent_install_fresh (parse : String → Option Rat)
    (fetch : String → Option String)
    (σ : ViewerState) (fe : FrameData) (A : FrameDetections)
    (hs : ¬ fe.stream_id = "") (hf : ¬ fe.id = "")
    (hA : alGet σ.pendingDetections fe.id = some A) (hc : A.detectionCount ≠ 0)
    (hex : alGet σ.detections fe.stream_id = none) :
    handleFrameEvent parse fetch σ fe = installFrame parse fetch σ fe A := by
  simp [handleFrameEvent, installFrame, hs, hf, hA, hc, hex]

theorem handleFrameEvent_install_newer (parse : String → Option Rat)
    (fetch : String → Option String)
    (σ : ViewerState) (fe : FrameData) (A : FrameDetections) (ex : DetectionCard)
    (hs : ¬ fe.stream_id = "") (hf : ¬ fe.id = "")
    (hA : alGet σ.pendingDetections fe.id = some A) (hc : A.detectionCount ≠ 0)
    (hex : alGet σ.detections fe.stream_id = some ex)
    (hle : jsLe (parse fe.timestamp) ex.messageTimestamp = false) :
    handleFrameEvent parse fetch σ fe = installFrame parse fetch σ fe A := by
  simp [handleFrameEvent, installFrame, hs, hf, hA, hc, hex, hle]

theorem handleDetectionEvent_no_pf (parse : String → Option Rat)
    (fetch : String → Option String) (σ : ViewerState) (d : DetData)
    (hfid : ¬ d.frame_id = "")
    (hpf : alGet σ.pendingFrames d.frame_id = none) :
    handleDetectionEvent parse fetch σ d =
      { σ with
        pendingDetections := alSet σ.pendingDetections d.frame_id
          (addDet ((alGet σ.pendingDetections d.frame_id).getD (emptyFD d.frame_id)) d) } := by
  simp [handleDetectionEvent, hfid, hpf]

theorem handleDetectionEvent_with_pf (parse : String → Option Rat)
    (fetch : String → Option String) (σ : ViewerState) (d : DetData) (fe : FrameData)
    (hfid : ¬ d.frame_id = "")
    (hpf : alGet σ.pendingFrames d.frame_id = some fe) :
    handleDetectionEvent parse fetch σ d =
      (fun σ2 => { σ2 with pendingFrames := alDel σ2.pendingFrames d.frame_id })
        (handleFrameEvent parse fetch
          { σ with
            pendingDetections := alSet σ.pendingDetections d.frame_id
              (addDet ((alGet σ.pendingDetections d.frame_id).getD (emptyFD d.frame_id)) d) }
          fe) := by
  simp [handleDetectionEvent, hfid, hpf]

theorem handleFrameEvent_noop (parse : String → Option Rat)
    (fetch : String → Option String) (σ : ViewerState) (fe : FrameData)
    (h0 : fe.stream_id = "" ∨ fe.id = "") :
    handleFrameEvent parse fetch σ fe = σ := by
  simp [handleFrameEvent, h0]

/-- `handleFrameEvent` never creates a pending-detections entry. -/
theorem handleFrameEvent_pd_none (parse : String → Option Rat)
    (fetch : String → Option String) (σ : ViewerState) (fe : FrameData) (f : String)
    (h : alGet σ.pendingDetections f = none) :
    alGet (handleFrameEvent parse fetch σ fe).pendingDetections f = none := by
  by_cases h0 : fe.stream_id = "" ∨ fe.id = ""
  · rw [handleFrameEvent_noop parse fetch σ fe h0]; exact h
  · push_neg at h0
    obtain ⟨hs, hf⟩ := h0
    by_cases hc : ((alGet σ.pendingDetections fe.id).getD (emptyFD fe.id)).detectionCount = 0
    · rw [handleFrameEvent_park parse fetch σ fe hs hf hc]; exact h
    · cases hA : alGet σ.pendingDetections fe.id with
      | none => rw [hA] at hc; simp [emptyFD] at hc
      | some A =>
        have hc' : A.detectionCount ≠ 0 := by rw [hA] at hc; simpa using hc
        cases hex : alGet σ.detections fe.stream_id with
        | none =>
          rw [handleFrameEvent_install_fresh parse fetch σ fe A hs hf hA hc' hex]
          simpa [installFrame] using alGet_del_none σ.pendingDetections h
        | some ex =>
          by_cases hle : jsLe (parse fe.timestamp) ex.messageTimestamp = true
          · rw [handleFrameEvent_stale parse fetch σ fe A ex hs hf hA hc' hex hle]; exact h
          · have hle' : jsLe (parse fe.timestamp) ex.messageTimestamp = false :=
              Bool.not_eq_true _ ▸ Bool.eq_false_iff.mpr hle
            rw [handleFrameEvent_install_newer parse fetch σ fe A ex hs hf hA hc' hex hle']
            simpa [installFrame] using alGet_del_none σ.pendingDetections h

theorem run_nil (parse : String → Option Rat) (fetch : String → Option String)
    (σ : ViewerState) : run parse fetch σ [] = σ := rfl

theorem run_cons (parse : String → Option Rat) (fetch : String → Option String)
    (σ : ViewerState) (e : SSEEvent) (t : List SSEEvent) :
    run parse fetch σ (e :: t) = run parse fetch (step parse fetch σ e) t := rfl

/-- A detection for a different frame never creates a pending-detections
entry for `f`. -/
theorem handleDetectionEvent_pd_none (parse : String → Option Rat)
    (fetch : String → Option String) (σ : ViewerState) (d : DetData) (f : String)
    (h : alGet σ.pendingDetections f = none) (hd : d.frame_id ≠ f) :
    alGet (handleDetectionEvent parse fetch σ d).pendingDetections f = none := by
  by_cases h0 : d.frame_id = ""
  · simp [handleDetectionEvent, h0, h]
  · have hset : alGet (alSet σ.pendingDetections d.frame_id
        (addDet ((alGet σ.pendingDetections d.frame_id).getD (emptyFD d.frame_id)) d)) f
        = none := by
      rw [alGet_set_ne _ _ hd]; exact h
    cases hpf : alGet σ.pendingFrames d.frame_id with
    | none =>
      rw [handleDetectionEvent_no_pf parse fetch σ d h0 hpf]
      exact hset
    | some fe =>
      rw [handleDetectionEvent_with_pf parse fetch σ d fe h0 hpf]
      simpa using handleFrameEvent_pd_none parse fetch _ fe f hset

/-- The pending-detections entry for `f` stays absent across any event
that is not a detection carrying frame id `f`. -/
theorem step_pd_none (parse : String → Option Rat) (fetch : String → Option String)
    (σ : ViewerState) (f : String) (e : SSEEvent)
    (h : alGet σ.pendingDetections f = none)
    (he : ∀ d : DetData, e = SSEEvent.det d → d.frame_id ≠ f) :
    alGet (step parse fetch σ e).pendingDetections f = none := by
  cases e with
  | det d => exact handleDetectionEvent_pd_none parse fetch σ d f h (he d rfl)
  | frm fe => exact handleFrameEvent_pd_none parse fetch σ fe f h

/-- Same, over an event sequence carrying no detection for frame `f`. -/
theorem run_pd_none (parse : String → Option Rat) (fetch : String → Option String)
    (f : String) :
    ∀ (evs : List SSEEvent) (σ : ViewerState),
      alGet σ.pendingDetections f = none →
      (∀ d : DetData, SSEEvent.det d ∈ evs → d.frame_id ≠ f) →
      alGet (run parse fetch σ evs).pendingDetections f = none := by
  intro evs
  induction evs with
  | nil => intro σ h _; exact h
  | cons e t ih =>
    intro σ h he
    rw [run_cons]
    refine ih (step parse fetch σ e) ?_ ?_
    · exact step_pd_none parse fetch σ f e h (fun d hd => he d (by simp [hd]))
    · intro d hd
      exact he d (List.mem_cons_of_mem _ hd)

/-- A detection event for a frame with no parked frame event touches only
the pending-detections buffer: the slot map and the pending-frames buffer
are unchanged. -/
theorem handleDetectionEvent_frozen (parse : String → Option Rat)
    (fetch : String → Option String) (σ : ViewerState) (d : DetData)
    (hpf : alGet σ.pendingFrames d.frame_id = none) :
    (handleDetectionEvent parse fetch σ d).detections = σ.detections ∧
    (handleDetectionEvent parse fetch σ d).pendingFrames = σ.pendingFrames := by
  by_cases h0 : d.frame_id = ""
  · simp [handleDetectionEvent, h0]
  · rw [handleDetectionEvent_no_pf parse fetch σ d h0 hpf]
    exact ⟨rfl, rfl⟩

/-- Detections all carrying frame id `f`, delivered while no frame event
for `f` is parked, leave the slot map unchanged and keep the
pending-frames buffer free of `f`. -/
theorem runDets_frozen (parse : String → Option Rat) (fetch : String → Option String)
    (f : String) :
    ∀ (ds : List DetData) (σ : ViewerState),
      (∀ d ∈ ds, d.frame_id = f) →
      alGet σ.pendingFrames f = none →
      (run parse fetch σ (ds.map SSEEvent.det)).detections = σ.detections ∧
      alGet (run parse fetch σ (ds.map SSEEvent.det)).pendingFrames f = none := by
  intro ds
  induction ds with
  | nil => intro σ _ hpf; exact ⟨rfl, hpf⟩
  | cons d t ih =>
    intro σ hall hpf
    have hd : d.frame_id = f := hall d (by simp)
    have hpfd : alGet σ.pendingFrames d.frame_id = none := by rw [hd]; exact hpf
    have hfr := handleDetectionEvent_frozen parse fetch σ d hpfd
    rw [List.map_cons, run_cons]
    have hstep : step parse fetch σ (SSEEvent.det d) = handleDetectionEvent parse fetch σ d :=
      rfl
    have ht := ih (step parse fetch σ (SSEEvent.det d))
      (fun x hx => hall x (List.mem_cons_of_mem _ hx))
      (by rw [hstep, hfr.2]; exact hpf)
    refine ⟨?_, ht.2⟩
    rw [ht.1, hstep, hfr.1]

/-! ### Further helper lemmas -/

theorem jsLe_none_left (b : Option Rat) : jsLe none b = false := by
  cases b <;> rfl

theorem jsLe_none_right (a : Option Rat) : jsLe a none = false := by
  cases a <;> rfl

theorem jsLe_some_some (x y : Rat) : jsLe (some x) (some y) = decide (x ≤ y) := rfl

/-- The viewer component of `onMessage` is `routeMessage` of the previous
viewer component: routing never depends on the status string. -/
theorem onMessage_viewer (parse : String → Option Rat) (fetch : String → Option String)
    (a : AppState) (m : RawMsg) :
    (onMessage parse fetch a m).viewer = routeMessage parse fetch a.viewer m := by
  have hsd : strTruthy (some "detection") = true := rfl
  have hsf : strTruthy (some "frame") = true := rfl
  unfold onMessage routeMessage
  by_cases h1 : strTruthy m.type = false
  · simp [h1]
  · by_cases h2 : strTruthy m.error = true
    · simp [h1, h2]
    · by_cases h3 : m.type = some "detection"
      · cases hd : m.det <;> simp [h1, h2, h3, hd, hsd]
      · by_cases h4 : m.type = some "frame"
        · cases hf : m.frm <;> simp [h1, h2, h3, h4, hf, hsf]
        · simp [h1, h2, h3, h4]

/-! ### Claim theorems -/

/-- Claim C3: zero-detection frames are never surfaced.  Along any event
sequence containing no detection for frame `f`, a well-formed frame event
for `f` leaves the slot map entirely unchanged (so the slot for its
stream stays absent or unchanged) and is parked in the pending-frames
buffer instead. -/
theorem c3_zero_detection_frames_never_surfaced
    (parse : String → Option Rat) (fetch : String → Option String)
    (σ : ViewerState) (f : String) (evs : List SSEEvent) (fe : FrameData)
    (hpd : alGet σ.pendingDetections f = none)
    (hnodet : ∀ d : DetData, SSEEvent.det d ∈ evs → d.frame_id ≠ f)
    (hfe : fe.id = f) (hf : ¬ fe.id = "") (hs : ¬ fe.stream_id = "") :
    (step parse fetch (run parse fetch σ evs) (SSEEvent.frm fe)).detections
      = (run parse fetch σ evs).detections ∧
    alGet (step parse fetch (run parse fetch σ evs) (SSEEvent.frm fe)).pendingFrames fe.id
      = some fe := by
  have hpd' : alGet (run parse fetch σ evs).pendingDetections f = none :=
    run_pd_none parse fetch f evs σ hpd hnodet
  have hc : ((alGet (run parse fetch σ evs).pendingDetections fe.id).getD
      (emptyFD fe.id)).detectionCount = 0 := by
    rw [hfe, hpd']; simp [emptyFD]
  have hstep : step parse fetch (run parse fetch σ evs) (SSEEvent.frm fe)
      = handleFrameEvent parse fetch (run parse fetch σ evs) fe := rfl
  rw [hstep, handleFrameEvent_park parse fetch _ fe hs hf hc]
  exact ⟨rfl, alGet_set_self _ fe.id fe⟩

/-- Claim C3 witness: one foreign detection, then a frame for `f9` with
no detection ever buffered; the slot map stays empty and the frame sits
in the pending buffer. -/
theorem c3_witness :
    (step parseT fetchOk (run parseT fetchOk initState [SSEEvent.det dA])
        (SSEEvent.frm fe9)).detections
      = (run parseT fetchOk initState [SSEEvent.det dA]).detections ∧
    alGet (step parseT fetchOk (run parseT fetchOk initState [SSEEvent.det dA])
        (SSEEvent.frm fe9)).pendingFrames fe9.id = some fe9 :=
  c3_zero_detection_frames_never_surfaced parseT fetchOk initState "f9"
    [SSEEvent.det dA] fe9 (by decide)
    (by intro d hd; simp at hd; subst hd; decide)
    (by decide) (by decide) (by decide)

/-- Claim C5: confidence normalization.  A detection handled from a state
with no pending aggregate or parked frame for its frame id stores, under
its label, exactly `confidence / 100` when the raw confidence exceeds 1
and the raw confidence otherwise; in particular raw `0.87` and raw `87`
for the same label yield identical stored label entries with value
`0.87`. -/
theorem c5_confidence_normalization :
    (∀ (parse : String → Option Rat) (fetch : String → Option String)
       (σ : ViewerState) (d : DetData),
      ¬ d.frame_id = "" →
      alGet σ.pendingDetections d.frame_id = none →
      alGet σ.pendingFrames d.frame_id = none →
      alGet (handleDetectionEvent parse fetch σ d).pendingDetections d.frame_id
        = some (addDet (emptyFD d.frame_id) d) ∧
      alGet (addDet (emptyFD d.frame_id) d).labels d.label
        = some (if 1 < d.confidence then d.confidence / 100 else d.confidence)) ∧
    (normalizeScore (87/100) = 87/100 ∧ normalizeScore 87 = 87/100) ∧
    (addDet (emptyFD "f5") d087).labels = [("person", 87/100)] ∧
    (addDet (emptyFD "f5") d87).labels = [("person", 87/100)] := by
  refine ⟨?_, ⟨?_, ?_⟩, ?_, ?_⟩
  case refine_2 => norm_num [normalizeScore]
  case refine_3 => norm_num [normalizeScore]
  case refine_4 =>
    norm_num [addDet, emptyFD, updLabels, alGet, alSet, normalizeScore, d087]
  case refine_5 =>
    norm_num [addDet, emptyFD, updLabels, alGet, alSet, normalizeScore, d87]
  intro parse fetch σ d hfid hpd hpf
  constructor
  · rw [handleDetectionEvent_no_pf parse fetch σ d hfid hpf]
    show alGet (alSet σ.pendingDetections d.frame_id
        (addDet ((alGet σ.pendingDetections d.frame_id).getD (emptyFD d.frame_id)) d))
        d.frame_id = _
    rw [hpd, alGet_set_self]
    rfl
  · simp [addDet, emptyFD, updLabels, normalizeScore, alGet, alSet]

/-- Claim C5 witness: instantiated at the percent-scale detection `d87`
from the initial state. -/
theorem c5_witness :
    alGet (handleDetectionEvent parseT fetchOk initState d87).pendingDetections d87.frame_id
      = some (addDet (emptyFD d87.frame_id) d87) ∧
    alGet (addDet (emptyFD d87.frame_id) d87).labels d87.label
      = some (if 1 < d87.confidence then d87.confidence / 100 else d87.confidence) :=
  c5_confidence_normalization.1 parseT fetchOk initState d87
    (by decide) (by decide) (by decide)

/-- Claim C7: image-fetch failure degrades gracefully.  When the fetch
for a completing frame fails (`none`), the frame is still completed and
stored in its stream's slot with no image and with its buffered
detections intact. -/
theorem c7_image_fetch_failure_degrades
    (parse : String → Option Rat) (fetch : String → Option String)
    (σ : ViewerState) (fe : FrameData) (A : FrameDetections)
    (hs : ¬ fe.stream_id = "") (hf : ¬ fe.id = "")
    (hA : alGet σ.pendingDetections fe.id = some A) (hc : A.detectionCount ≠ 0)
    (hslot : alGet σ.detections fe.stream_id = none)
    (hfail : fetch fe.id = none) :
    alGet (handleFrameEvent parse fetch σ fe).detections fe.stream_id
      = some ⟨⟨fe, none, A⟩, parse fe.timestamp⟩ := by
  rw [handleFrameEvent_install_fresh parse fetch σ fe A hs hf hA hc hslot]
  show alGet (alSet σ.detections fe.stream_id _) fe.stream_id = _
  rw [alGet_set_self]
  simp [hfail, imgOpt]

/-- Claim C7 witness: a buffered detection for `f1`, then its frame under
the always-failing fetch oracle; the slot holds the completed frame with
no image. -/
theorem c7_witness :
    alGet (handleFrameEvent parseT fetch0 (run parseT fetch0 initState [SSEEvent.det dA])
        feX).detections feX.stream_id
      = some ⟨⟨feX, none, addDet (emptyFD "f1") dA⟩, parseT feX.timestamp⟩ :=
  c7_image_fetch_failure_degrades parseT fetch0 _ feX (addDet (emptyFD "f1") dA)
    (by decide) (by decide) (by decide) (by decide) (by decide) (by decide)

/-- Claim C10: `NaN` timestamps defeat the staleness check.  A completing
frame whose timestamp does not parse always replaces the existing slot
for its stream, and any completing frame always replaces a slot whose
stored timestamp is `NaN` — both because every JavaScript comparison
against `NaN` is false. -/
theorem c10_nan_timestamps :
    (∀ (parse : String → Option Rat) (fetch : String → Option String)
       (σ : ViewerState) (fe : FrameData) (A : FrameDetections) (ex : DetectionCard),
      ¬ fe.stream_id = "" → ¬ fe.id = "" →
      alGet σ.pendingDetections fe.id = some A → A.detectionCount ≠ 0 →
      alGet σ.detections fe.stream_id = some ex →
      parse fe.timestamp = none →
      alGet (handleFrameEvent parse fetch σ fe).detections fe.stream_id
        = some ⟨⟨fe, imgOpt (fetch fe.id), A⟩, none⟩) ∧
    (∀ (parse : String → Option Rat) (fetch : String → Option String)
       (σ : ViewerState) (fe : FrameData) (A : FrameDetections) (ex : DetectionCard),
      ¬ fe.stream_id = "" → ¬ fe.id = "" →
      alGet σ.pendingDetections fe.id = some A → A.detectionCount ≠ 0 →
      alGet σ.detections fe.stream_id = some ex →
      ex.messageTimestamp = none →
      alGet (handleFrameEvent parse fetch σ fe).detections fe.stream_id
        = some ⟨⟨fe, imgOpt (fetch fe.id), A⟩, parse fe.timestamp⟩) := by
  constructor
  · intro parse fetch σ fe A ex hs hf hA hc hex hnan
    have hle : jsLe (parse fe.timestamp) ex.messageTimestamp = false := by
      rw [hnan]; exact jsLe_none_left _
    rw [handleFrameEvent_install_newer parse fetch σ fe A ex hs hf hA hc hex hle]
    show alGet (alSet σ.detections fe.stream_id _) fe.stream_id = _
    rw [alGet_set_self, hnan]
  · intro parse fetch σ fe A ex hs hf hA hc hex hnan
    have hle : jsLe (parse fe.timestamp) ex.messageTimestamp = false := by
      rw [hnan]; exact jsLe_none_right _
    rw [handleFrameEvent_install_newer parse fetch σ fe A ex hs hf hA hc hex hle]
    show alGet (alSet σ.detections fe.stream_id _) fe.stream_id = _
    rw [alGet_set_self]

/-- Claim C10 witness: a `NaN`-timestamp frame replaces the slot holding
timestamp 1, instantiating the first half of the claim. -/
theorem c10_witness :
    alGet (handleFrameEvent parseT fetchOk
        (run parseT fetchOk initState [SSEEvent.det dA, SSEEvent.frm feX, SSEEvent.det dB])
        feN).detections feN.stream_id
      = some ⟨⟨feN, imgOpt (fetchOk feN.id), addDet (emptyFD "f1") dB⟩, none⟩ :=
  c10_nan_timestamps.1 parseT fetchOk _ feN (addDet (emptyFD "f1") dB) cW
    (by decide) (by decide) (by decide) (by decide) (by decide) (by decide)

/-- Claim C8: bounding-box overlay transform.  The overlay scale is the
uniform `min(displayWidth/naturalWidth, displayHeight/naturalHeight)` in
both axes, the offsets are the centering `(display - rendered)/2`, and
each raw coordinate maps to `raw * scale + offset`; concretely a
1920×1080 image in a 960×600 display scales by `1/2` (tall letterbox,
offsets `(0, 30)`), sending box `(100,100,300,300)` to
`(50,50,150,150)` plus those offsets, and in a 1000×540 display (wide
letterbox) the offsets are `(20, 0)`. -/
theorem c8_bbox_overlay_transform :
    (∀ nW nH dW dH : Rat,
      (computeImageScale nW nH dW dH).scaleX = min (dW / nW) (dH / nH) ∧
      (computeImageScale nW nH dW dH).scaleY = min (dW / nW) (dH / nH) ∧
      (computeImageScale nW nH dW dH).offsetX = (dW - nW * min (dW / nW) (dH / nH)) / 2 ∧
      (computeImageScale nW nH dW dH).offsetY = (dH - nH * min (dW / nW) (dH / nH)) / 2) ∧
    (∀ (s : ImageScale) (x1 y1 x2 y2 : Rat),
      scaleBBox s (x1, y1, x2, y2) =
        (x1 * s.scaleX + s.offsetX, y1 * s.scaleY + s.offsetY,
         x2 * s.scaleX + s.offsetX, y2 * s.scaleY + s.offsetY)) ∧
    computeImageScale 1920 1080 960 600 = ⟨1/2, 1/2, 0, 30, 960, 540⟩ ∧
    scaleBBox (computeImageScale 1920 1080 960 600) (100, 100, 300, 300)
      = (50 + 0, 50 + 30, 150 + 0, 150 + 30) ∧
    computeImageScale 1920 1080 1000 540 = ⟨1/2, 1/2, 20, 0, 960, 540⟩ ∧
    scaleBBox (computeImageScale 1920 1080 1000 540) (100, 100, 300, 300)
      = (50 + 20, 50 + 0, 150 + 20, 150 + 0) := by
  have h960 : min ((960 : Rat) / 1920) (600 / 1080) = 1/2 := by
    rw [min_eq_left] <;> norm_num
  have h1000 : min ((1000 : Rat) / 1920) (540 / 1080) = 1/2 := by
    rw [min_eq_right] <;> norm_num
  refine ⟨fun nW nH dW dH => ⟨rfl, rfl, rfl, rfl⟩, fun s x1 y1 x2 y2 => rfl, ?_, ?_, ?_, ?_⟩
  · simp only [computeImageScale, h960]
    norm_num
  · simp only [computeImageScale, scaleBBox, h960]
    norm_num
  · simp only [computeImageScale, h1000]
    norm_num
  · simp only [computeImageScale, scaleBBox, h1000]
    norm_num

/-- Claim C9: reconnect after transport error.  While live and connected,
a transport error sets the reconnecting status and schedules a 1000 ms
check; when the check fires with the connection still present and CLOSED
a `connect()` call happens, it does not happen when the readyState shows
the browser already reopening, and it does not happen if `setLive(false)`
ran in the interim (which nulls the connection ref). -/
theorem c9_reconnect_after_transport_error
    (m : Mgr) (rs r0 : ESReady)
    (hes : m.es = some r0) (hlive : m.isLive = true) :
    (onTransportError m rs).status = "Connection error - reconnecting..." ∧
    (onTransportError m rs).reconnectDelay = some 1000 ∧
    (rs = ESReady.closed →
      (timerFire (onTransportError m rs)).connectCalls = m.connectCalls + 1) ∧
    (¬ rs = ESReady.closed →
      (timerFire (onTransportError m rs)).connectCalls = m.connectCalls) ∧
    (timerFire (setLiveFalse (onTransportError m rs))).connectCalls = m.connectCalls := by
  refine ⟨rfl, rfl, ?_, ?_, ?_⟩
  · intro hrs
    subst hrs
    simp [timerFire, onTransportError, connect, setLiveFalse, hes, hlive]
  · intro hrs
    cases rs with
    | closed => exact absurd rfl hrs
    | connecting => simp [timerFire, onTransportError, hes]
    | opened => simp [timerFire, onTransportError, hes]
  · simp [timerFire, setLiveFalse, onTransportError, hes]

/-- Claim C9 witness: instantiated at a live connected manager with the
error leaving the EventSource CLOSED. -/
theorem c9_witness :
    (onTransportError mgrLive ESReady.closed).status
        = "Connection error - reconnecting..." ∧
    (onTransportError mgrLive ESReady.closed).reconnectDelay = some 1000 ∧
    (ESReady.closed = ESReady.closed →
      (timerFire (onTransportError mgrLive ESReady.closed)).connectCalls
        = mgrLive.connectCalls + 1) ∧
    (¬ ESReady.closed = ESReady.closed →
      (timerFire (onTransportError mgrLive ESReady.closed)).connectCalls
        = mgrLive.connectCalls) ∧
    (timerFire (setLiveFalse (onTransportError mgrLive ESReady.closed))).connectCalls
      = mgrLive.connectCalls :=
  c9_reconnect_after_transport_error mgrLive ESReady.closed ESReady.opened rfl rfl

/-- Claim C6 counterexample: the message `{error:"boom"}` carries an
explicit error field, yet — because the keepalive check `!message.type`
runs first — it is dropped with the status left untouched, never set to
an error state. -/
theorem c6_counterexample :
    onMessage parseT fetch0 ⟨"Connected", initState⟩
        ⟨none, some "boom", none, none⟩
      = ⟨"Connected", initState⟩ ∧
    ("Connected" : String) ≠ "Error: boom" := by
  exact ⟨rfl, by decide⟩

/-- Claim C6 (amended): a message carrying a truthy `type` field and a
truthy `error` field updates the status to the error state and is
otherwise dropped (the correlator state is untouched); and the processing
of any message depends only on the correlator state, never on the status,
so subsequent messages are processed normally. -/
theorem c6_error_messages
    (parse : String → Option Rat) (fetch : String → Option String)
    (a : AppState) (m : RawMsg) (ty e : String)
    (hty : m.type = some ty) (hty' : ¬ ty = "")
    (herr : m.error = some e) (herr' : ¬ e = "") :
    onMessage parse fetch a m = { a with status := "Error: " ++ e } ∧
    (∀ (a1 a2 : AppState) (m' : RawMsg), a1.viewer = a2.viewer →
      (onMessage parse fetch a1 m').viewer = (onMessage parse fetch a2 m').viewer) := by
  constructor
  · have h1 : strTruthy m.type = true := by
      rw [hty]; simpa [strTruthy] using hty'
    have h2 : strTruthy (some e) = true := by
      simpa [strTruthy] using herr'
    simp [onMessage, h1, h2, herr]
  · intro a1 a2 m' h
    rw [onMessage_viewer, onMessage_viewer, h]

/-- Claim C6 witness: a typed message with `error:"boom"` only flips the
status to the error state. -/
theorem c6_witness :
    onMessage parseT fetch0 ⟨"Connected", initState⟩
        ⟨some "detection", some "boom", some dA, none⟩
      = { status := "Error: " ++ "boom", viewer := initState } ∧
    (∀ (a1 a2 : AppState) (m' : RawMsg), a1.viewer = a2.viewer →
      (onMessage parseT fetch0 a1 m').viewer = (onMessage parseT fetch0 a2 m').viewer) :=
  c6_error_messages parseT fetch0 ⟨"Connected", initState⟩
    ⟨some "detection", some "boom", some dA, none⟩ "detection" "boom"
    rfl (by decide) rfl (by decide)

/-- Claim C2: per-stream timestamp monotonicity of the slot map.  Two
completing frames for the same stream with parseable timestamps T1 < T2
leave the slot at T2's data in either application order (in reverse order
T1 is rejected); and a completing frame whose parsed timestamp is not
greater than the current slot's timestamp is silently discarded, leaving
the state untouched. -/
theorem c2_slot_monotonicity :
    (∀ (parse : String → Option Rat) (fetch : String → Option String)
       (σ : ViewerState) (fe1 fe2 : FrameData) (A1 A2 : FrameDetections) (t1 t2 : Rat),
      fe1.stream_id = fe2.stream_id →
      ¬ fe2.stream_id = "" → ¬ fe1.id = "" → ¬ fe2.id = "" → fe1.id ≠ fe2.id →
      parse fe1.timestamp = some t1 → parse fe2.timestamp = some t2 → t1 < t2 →
      alGet σ.pendingDetections fe1.id = some A1 → A1.detectionCount ≠ 0 →
      alGet σ.pendingDetections fe2.id = some A2 → A2.detectionCount ≠ 0 →
      alGet σ.detections fe2.stream_id = none →
      (alGet (run parse fetch σ [SSEEvent.frm fe1, SSEEvent.frm fe2]).detections
          fe2.stream_id
        = some ⟨⟨fe2, imgOpt (fetch fe2.id), A2⟩, some t2⟩ ∧
       alGet (run parse fetch σ [SSEEvent.frm fe2, SSEEvent.frm fe1]).detections
          fe2.stream_id
        = some ⟨⟨fe2, imgOpt (fetch fe2.id), A2⟩, some t2⟩)) ∧
    (∀ (parse : String → Option Rat) (fetch : String → Option String)
       (σ : ViewerState) (fe : FrameData) (A : FrameDetections) (ex : DetectionCard)
       (t t' : Rat),
      ¬ fe.stream_id = "" → ¬ fe.id = "" →
      alGet σ.pendingDetections fe.id = some A → A.detectionCount ≠ 0 →
      alGet σ.detections fe.stream_id = some ex →
      parse fe.timestamp = some t → ex.messageTimestamp = some t' → t ≤ t' →
      handleFrameEvent parse fetch σ fe = σ) := by
  constructor
  · intro parse fetch σ fe1 fe2 A1 A2 t1 t2 hss hs2 hf1 hf2 hne hp1 hp2 hlt
      hA1 hc1 hA2 hc2 hslot
    have hs1 : ¬ fe1.stream_id = "" := by rw [hss]; exact hs2
    have hslot1 : alGet σ.detections fe1.stream_id = none := by rw [hss]; exact hslot
    constructor
    · -- order T1 then T2: T2's frame overwrites T1's card
      have step1 : handleFrameEvent parse fetch σ fe1 = installFrame parse fetch σ fe1 A1 :=
        handleFrameEvent_install_fresh parse fetch σ fe1 A1 hs1 hf1 hA1 hc1 hslot1
      have hA2' : alGet (installFrame parse fetch σ fe1 A1).pendingDetections fe2.id
          = some A2 := by
        show alGet (alDel σ.pendingDetections fe1.id) fe2.id = some A2
        rw [alGet_del_ne _ hne]; exact hA2
      have hex' : alGet (installFrame parse fetch σ fe1 A1).detections fe2.stream_id
          = some ⟨⟨fe1, imgOpt (fetch fe1.id), A1⟩, parse fe1.timestamp⟩ := by
        show alGet (alSet σ.detections fe1.stream_id _) fe2.stream_id = _
        rw [← hss]
        exact alGet_set_self _ _ _
      have hle : jsLe (parse fe2.timestamp) (parse fe1.timestamp) = false := by
        rw [hp1, hp2, jsLe_some_some]
        exact decide_eq_false (not_le.mpr hlt)
      have step2 : handleFrameEvent parse fetch (installFrame parse fetch σ fe1 A1) fe2
          = installFrame parse fetch (installFrame parse fetch σ fe1 A1) fe2 A2 :=
        handleFrameEvent_install_newer parse fetch _ fe2 A2 _ hs2 hf2 hA2' hc2 hex' hle
      show alGet (handleFrameEvent parse fetch
          (handleFrameEvent parse fetch σ fe1) fe2).detections fe2.stream_id = _
      rw [step1, step2]
      show alGet (alSet (installFrame parse fetch σ fe1 A1).detections fe2.stream_id
          ⟨⟨fe2, imgOpt (fetch fe2.id), A2⟩, parse fe2.timestamp⟩) fe2.stream_id = _
      rw [alGet_set_self, hp2]
    · -- order T2 then T1: T1's frame is rejected as stale
      have step1 : handleFrameEvent parse fetch σ fe2 = installFrame parse fetch σ fe2 A2 :=
        handleFrameEvent_install_fresh parse fetch σ fe2 A2 hs2 hf2 hA2 hc2 hslot
      have hA1' : alGet (installFrame parse fetch σ fe2 A2).pendingDetections fe1.id
          = some A1 := by
        show alGet (alDel σ.pendingDetections fe2.id) fe1.id = some A1
        rw [alGet_del_ne _ (Ne.symm hne)]; exact hA1
      have hex' : alGet (installFrame parse fetch σ fe2 A2).detections fe1.stream_id
          = some ⟨⟨fe2, imgOpt (fetch fe2.id), A2⟩, parse fe2.timestamp⟩ := by
        show alGet (alSet σ.detections fe2.stream_id _) fe1.stream_id = _
        rw [hss]
        exact alGet_set_self _ _ _
      have hle : jsLe (parse fe1.timestamp) (parse fe2.timestamp) = true := by
        rw [hp1, hp2, jsLe_some_some]
        exact decide_eq_true (le_of_lt hlt)
      have step2 : handleFrameEvent parse fetch (installFrame parse fetch σ fe2 A2) fe1
          = installFrame parse fetch σ fe2 A2 :=
        handleFrameEvent_stale parse fetch _ fe1 A1 _ hs1 hf1 hA1' hc1 hex' hle
      show alGet (handleFrameEvent parse fetch
          (handleFrameEvent parse fetch σ fe2) fe1).detections fe2.stream_id = _
      rw [step1, step2]
      show alGet (alSet σ.detections fe2.stream_id
          ⟨⟨fe2, imgOpt (fetch fe2.id), A2⟩, parse fe2.timestamp⟩) fe2.stream_id = _
      rw [alGet_set_self, hp2]
  · intro parse fetch σ fe A ex t t' hs hf hA hc hex hpt hmts hle
    refine handleFrameEvent_stale parse fetch σ fe A ex hs hf hA hc hex ?_
    rw [hpt, hmts, jsLe_some_some]
    exact decide_eq_true hle

/-- Claim C2 witness: frames `g1` (timestamp 1) and `g2` (timestamp 2) on
stream `sw`, applied in both orders from a state holding one buffered
detection for each, plus a stale re-delivery of `g1` after `g2` won. -/
theorem c2_witness :
    (alGet (run parseT fetchOk (run parseT fetchOk initState
          [SSEEvent.det dG1, SSEEvent.det dG2])
        [SSEEvent.frm feT1, SSEEvent.frm feT2]).detections feT2.stream_id
      = some ⟨⟨feT2, imgOpt (fetchOk feT2.id), addDet (emptyFD "g2") dG2⟩, some 2⟩ ∧
     alGet (run parseT fetchOk (run parseT fetchOk initState
          [SSEEvent.det dG1, SSEEvent.det dG2])
        [SSEEvent.frm feT2, SSEEvent.frm feT1]).detections feT2.stream_id
      = some ⟨⟨feT2, imgOpt (fetchOk feT2.id), addDet (emptyFD "g2") dG2⟩, some 2⟩) ∧
    handleFrameEvent parseT fetchOk (run parseT fetchOk initState
        [SSEEvent.det dG1, SSEEvent.det dG2, SSEEvent.frm feT2]) feT1
      = run parseT fetchOk initState
          [SSEEvent.det dG1, SSEEvent.det dG2, SSEEvent.frm feT2] :=
  ⟨c2_slot_monotonicity.1 parseT fetchOk
      (run parseT fetchOk initState [SSEEvent.det dG1, SSEEvent.det dG2])
      feT1 feT2 (addDet (emptyFD "g1") dG1) (addDet (emptyFD "g2") dG2) 1 2
      (by decide) (by decide) (by decide) (by decide) (by decide)
      (by decide) (by decide) (by decide) (by decide) (by decide)
      (by decide) (by decide) (by decide),
   c2_slot_monotonicity.2 parseT fetchOk
      (run parseT fetchOk initState [SSEEvent.det dG1, SSEEvent.det dG2, SSEEvent.frm feT2])
      feT1 (addDet (emptyFD "g1") dG1)
      ⟨⟨feT2, imgOpt (fetchOk feT2.id), addDet (emptyFD "g2") dG2⟩, some 2⟩ 1 2
      (by decide) (by decide) (by decide) (by decide) (by decide)
      (by decide) (by decide) (by decide)⟩

/-- Claim C4: a completed frame's aggregate is frozen.  Once a card for
frame `fe.id` with parseable timestamp sits in its stream's slot (and no
frame event for that id is parked), delivering any further detections
carrying that frame id followed by a re-delivery of the frame event
leaves the entire slot map — in particular the stored detection list,
label map and count — exactly as it was; the completed frame is never
re-associated with the newly buffered detections. -/
theorem c4_completed_frame_frozen
    (parse : String → Option Rat) (fetch : String → Option String)
    (σ : ViewerState) (s : String) (c : DetectionCard)
    (fe : FrameData) (ds : List DetData) (t : Rat)
    (hslot : alGet σ.detections s = some c)
    (hs : ¬ fe.stream_id = "") (hf : ¬ fe.id = "") (hsid : fe.stream_id = s)
    (hts : parse fe.timestamp = some t) (hcts : c.messageTimestamp = some t)
    (hpf : alGet σ.pendingFrames fe.id = none)
    (hds : ∀ d ∈ ds, d.frame_id = fe.id) :
    (run parse fetch σ (ds.map SSEEvent.det)).detections = σ.detections ∧
    (step parse fetch (run parse fetch σ (ds.map SSEEvent.det))
        (SSEEvent.frm fe)).detections = σ.detections ∧
    alGet (step parse fetch (run parse fetch σ (ds.map SSEEvent.det))
        (SSEEvent.frm fe)).detections s = some c := by
  obtain ⟨hdet, hpf'⟩ := runDets_frozen parse fetch fe.id ds σ hds hpf
  have hslot' : alGet (run parse fetch σ (ds.map SSEEvent.det)).detections s = some c := by
    rw [hdet]; exact hslot
  have hstep : step parse fetch (run parse fetch σ (ds.map SSEEvent.det)) (SSEEvent.frm fe)
      = handleFrameEvent parse fetch (run parse fetch σ (ds.map SSEEvent.det)) fe := rfl
  by_cases hc0 : ((alGet (run parse fetch σ (ds.map SSEEvent.det)).pendingDetections
      fe.id).getD (emptyFD fe.id)).detectionCount = 0
  · rw [hstep, handleFrameEvent_park parse fetch _ fe hs hf hc0]
    exact ⟨hdet, hdet, hslot'⟩
  · cases hA : alGet (run parse fetch σ (ds.map SSEEvent.det)).pendingDetections fe.id with
    | none => rw [hA] at hc0; simp [emptyFD] at hc0
    | some A =>
      have hcA : A.detectionCount ≠ 0 := by rw [hA] at hc0; simpa using hc0
      have hex : alGet (run parse fetch σ (ds.map SSEEvent.det)).detections fe.stream_id
          = some c := by rw [hsid]; exact hslot'
      have hle : jsLe (parse fe.timestamp) c.messageTimestamp = true := by
        rw [hts, hcts, jsLe_some_some]
        exact decide_eq_true le_rfl
      rw [hstep, handleFrameEvent_stale parse fetch _ fe A c hs hf hA hcA hex hle]
      exact ⟨hdet, hdet, hslot'⟩

/-- Claim C4 witness: after completing frame `f1` on stream `s1`, a late
detection `dB` for `f1` and a re-delivered frame event leave the slot
holding the original card `cW`. -/
theorem c4_witness :
    (run parseT fetchOk (run parseT fetchOk initState [SSEEvent.det dA, SSEEvent.frm feX])
        ([dB].map SSEEvent.det)).detections
      = (run parseT fetchOk initState [SSEEvent.det dA, SSEEvent.frm feX]).detections ∧
    (step parseT fetchOk (run parseT fetchOk
          (run parseT fetchOk initState [SSEEvent.det dA, SSEEvent.frm feX])
          ([dB].map SSEEvent.det)) (SSEEvent.frm feX)).detections
      = (run parseT fetchOk initState [SSEEvent.det dA, SSEEvent.frm feX]).detections ∧
    alGet (step parseT fetchOk (run parseT fetchOk
          (run parseT fetchOk initState [SSEEvent.det dA, SSEEvent.frm feX])
          ([dB].map SSEEvent.det)) (SSEEvent.frm feX)).detections "s1" = some cW :=
  c4_completed_frame_frozen parseT fetchOk
    (run parseT fetchOk initState [SSEEvent.det dA, SSEEvent.frm feX]) "s1" cW feX [dB] 1
    (by decide) (by decide) (by decide) (by decide) (by decide) (by decide) (by decide)
    (by intro d hd; simp at hd; subst hd; decide)

/-- Claim C1 counterexample: with two detections `dA`, `dB` for frame
`f1`, delivering detections-then-frame completes the frame with both
detections, while delivering frame-then-detections completes it upon the
first detection alone — the final CompletedFrame contents differ between
the two arrival orders. -/
theorem c1_counterexample :
    alGet (run parseT fetch0 initState
        [SSEEvent.det dA, SSEEvent.det dB, SSEEvent.frm feX]).detections "s1"
      ≠ alGet (run parseT fetch0 initState
        [SSEEvent.frm feX, SSEEvent.det dA, SSEEvent.det dB]).detections "s1" := by
  decide

/-- Claim C1 (amended): order independence holds for a frame with exactly
one detection.  From any state with no pending entries for the frame and
no slot for its stream, delivering the single detection and the frame
event in either order yields identical final states, the frame is
completed exactly once (one new completion-log entry), and the slot holds
the completed frame built from that one detection.  (With two or more
detections, frame-before-detections completes the frame upon its first
detection only, as the counterexample shows.) -/
theorem c1_order_independence_single_detection
    (parse : String → Option Rat) (fetch : String → Option String)
    (σ : ViewerState) (d : DetData) (fe : FrameData)
    (hd : d.frame_id = fe.id) (hf : ¬ fe.id = "") (hs : ¬ fe.stream_id = "")
    (hpd : alGet σ.pendingDetections fe.id = none)
    (hpf : alGet σ.pendingFrames fe.id = none)
    (hslot : alGet σ.detections fe.stream_id = none) :
    run parse fetch σ [SSEEvent.det d, SSEEvent.frm fe]
      = run parse fetch σ [SSEEvent.frm fe, SSEEvent.det d] ∧
    (run parse fetch σ [SSEEvent.det d, SSEEvent.frm fe]).completedLog
      = σ.completedLog ++ [(fe.stream_id, fe.id)] ∧
    alGet (run parse fetch σ [SSEEvent.det d, SSEEvent.frm fe]).detections fe.stream_id
      = some ⟨⟨fe, imgOpt (fetch fe.id), addDet (emptyFD fe.id) d⟩, parse fe.timestamp⟩ := by
  have hfid : ¬ d.frame_id = "" := by rw [hd]; exact hf
  have hpfd : alGet σ.pendingFrames d.frame_id = none := by rw [hd]; exact hpf
  have hcA : (addDet (emptyFD fe.id) d).detectionCount ≠ 0 := by
    simp [addDet, emptyFD]
  -- detections-then-frame
  have eA : run parse fetch σ [SSEEvent.det d, SSEEvent.frm fe]
      = { σ with
          detections := alSet σ.detections fe.stream_id
            ⟨⟨fe, imgOpt (fetch fe.id), addDet (emptyFD fe.id) d⟩, parse fe.timestamp⟩
          completedLog := σ.completedLog ++ [(fe.stream_id, fe.id)] } := by
    show handleFrameEvent parse fetch (handleDetectionEvent parse fetch σ d) fe = _
    rw [handleDetectionEvent_no_pf parse fetch σ d hfid hpfd, hd, hpd]
    simp only [Option.getD_none]
    rw [handleFrameEvent_install_fresh parse fetch
      { σ with pendingDetections :=
          alSet σ.pendingDetections fe.id (addDet (emptyFD fe.id) d) }
      fe (addDet (emptyFD fe.id) d) hs hf
      (alGet_set_self σ.pendingDetections fe.id (addDet (emptyFD fe.id) d)) hcA hslot]
    simp only [installFrame]
    rw [alDel_set_of_get_none σ.pendingDetections _ hpd]
  -- frame-then-detection
  have eB : run parse fetch σ [SSEEvent.frm fe, SSEEvent.det d]
      = { σ with
          detections := alSet σ.detections fe.stream_id
            ⟨⟨fe, imgOpt (fetch fe.id), addDet (emptyFD fe.id) d⟩, parse fe.timestamp⟩
          completedLog := σ.completedLog ++ [(fe.stream_id, fe.id)] } := by
    show handleDetectionEvent parse fetch (handleFrameEvent parse fetch σ fe) d = _
    rw [handleFrameEvent_park parse fetch σ fe hs hf (by rw [hpd]; simp [emptyFD])]
    rw [handleDetectionEvent_with_pf parse fetch _ d fe
      (by rw [hd]; exact hf)
      (by show alGet (alSet σ.pendingFrames fe.id fe) d.frame_id = some fe
          rw [hd]; exact alGet_set_self _ _ _)]
    rw [hd]
    show (fun σ2 => { σ2 with pendingFrames := alDel σ2.pendingFrames fe.id })
        (handleFrameEvent parse fetch
          { σ with
            pendingDetections := alSet σ.pendingDetections fe.id
              (addDet ((alGet σ.pendingDetections fe.id).getD (emptyFD fe.id)) d)
            pendingFrames := alSet σ.pendingFrames fe.id fe } fe) = _
    rw [hpd]
    simp only [Option.getD_none]
    rw [handleFrameEvent_install_fresh parse fetch
      { σ with
        pendingDetections := alSet σ.pendingDetections fe.id (addDet (emptyFD fe.id) d)
        pendingFrames := alSet σ.pendingFrames fe.id fe }
      fe (addDet (emptyFD fe.id) d) hs hf
      (alGet_set_self σ.pendingDetections fe.id (addDet (emptyFD fe.id) d)) hcA hslot]
    simp only [installFrame]
    rw [alDel_set_of_get_none σ.pendingDetections _ hpd,
      alDel_set_of_get_none σ.pendingFrames _ hpf]
  refine ⟨by rw [eA, eB], by rw [eA], by rw [eA]; exact alGet_set_self _ _ _⟩

/-- Claim C1 (amended) witness: one detection `dA` and frame `feX` from
the initial state in both orders. -/
theorem c1_witness :
    run parseT fetchOk initState [SSEEvent.det dA, SSEEvent.frm feX]
      = run parseT fetchOk initState [SSEEvent.frm feX, SSEEvent.det dA] ∧
    (run parseT fetchOk initState [SSEEvent.det dA, SSEEvent.frm feX]).completedLog
      = initState.completedLog ++ [(feX.stream_id, feX.id)] ∧
    alGet (run parseT fetchOk initState
        [SSEEvent.det dA, SSEEvent.frm feX]).detections feX.stream_id
      = some ⟨⟨feX, imgOpt (fetchOk feX.id), addDet (emptyFD feX.id) dA⟩,
          parseT feX.timestamp⟩ :=
  c1_order_independence_single_detection parseT fetchOk initState dA feX
    (by decide) (by decide) (by decide) (by decide) (by decide) (by decide)

end DetectionViewer
